import Mathlib

/-!
Shallow embedding of a three-level memory hierarchy simulator (4-way
set-associative L1 cache, direct-mapped L2 cache, flat main memory, and a
controller orchestrating the miss cascade), translated from its C sources
(`l1_cache.c`, `l2_cache.c`, `main_memory.c`, `memory_subsystem.c`), with
theorems checking the specification's claims against the code.

Modelling conventions:
* machine words and addresses are `Nat`; the C bit masks are applied
  literally, so values stay in range wherever the C code kept them in range;
* the packed `v_r_d_tag` / `v_d_tag` words are modelled as records with
  named `valid`/`ref`/`dirty`/`tag` fields, each C mask operation mapped to
  the corresponding field operation;
* the global cache and memory arrays are total functions from indices to
  entries (updates are function updates), passed and returned explicitly;
* output parameters written through pointers (`read_data`, `status`,
  `evicted_writeback_address`, `evicted_writeback_data`) are modelled
  in-out: the operation receives the current value and returns the value
  the variable holds after the call;
* uninitialized stack buffers are modelled as all-zero values (the C code's
  behaviour does not depend on their contents except where noted);
* `exit(1)` (fatal errors) is modelled by `Option`: `none` is the fatal exit.
-/

/-- A 32-bit machine word, modelled as `Nat`. -/
abbrev Word := Nat

/-- An 8-word cache line (`WORDS_PER_CACHE_LINE = 8`). -/
abbrev Line := Fin 8 → Word

/-- The all-zero cache line; also the model of an uninitialized line buffer. -/
def zeroLine : Line := fun _ => 0

/-- Update one word of a cache line. -/
def setWord (l : Line) (i : Fin 8) (w : Word) : Line :=
  fun j => if j = i then w else l j

/-! ## Address decomposition (the C bit masks, applied to `Nat`) -/

/-- L1 set index: bits 5-13 of the address (`(address & (0x1ff << 5)) >> 5`). -/
def l1SetIndex (a : Nat) : Nat := (a &&& (0x1ff <<< 5)) >>> 5

/-- L1 tag: bits 14-31 of the address (`(address & (0x3ffff << 14)) >> 14`). -/
def l1Tag (a : Nat) : Nat := (a &&& (0x3ffff <<< 14)) >>> 14

/-- Word offset within a cache line: bits 2-4 (`(address & 0x1C) >> 2`). -/
def wordOffsetNat (a : Nat) : Nat := (a &&& 0x1C) >>> 2

/-- Word offset as an index into a `Line`. -/
def wordOffset (a : Nat) : Fin 8 :=
  ⟨wordOffsetNat a, by
    have h : a &&& 0x1C ≤ 0x1C := Nat.and_le_right
    have h2 : (a &&& 0x1C) >>> 2 ≤ 0x1C >>> 2 := by
      simp only [Nat.shiftRight_eq_div_pow]
      exact Nat.div_le_div_right h
    simpa [wordOffsetNat] using Nat.lt_of_le_of_lt h2 (by decide)⟩

/-- L2 index: bits 5-19 of the address (`(address & (0x7fff << 5)) >> 5`). -/
def l2Index (a : Nat) : Nat := (a &&& (0x7fff <<< 5)) >>> 5

/-- L2 tag: bits 20-31 of the address (`(address & (0xfff << 20)) >> 20`). -/
def l2Tag (a : Nat) : Nat := (a &&& (0xfff <<< 20)) >>> 20

/-! ## L1 cache (`l1_cache.c`) -/

/-- One L1 cache entry: the fields packed in the C `v_r_d_tag` word plus the
cache line data. -/
structure L1Entry where
  valid : Bool
  ref : Bool
  dirty : Bool
  tag : Nat
  line : Line

/-- One L1 set: four ways (`L1_LINES_PER_SET = 4`), scanned in order 0..3. -/
structure L1Set where
  w0 : L1Entry
  w1 : L1Entry
  w2 : L1Entry
  w3 : L1Entry

/-- The L1 cache: 512 sets, modelled as a total function on set indices. -/
abbrev L1Cache := Nat → L1Set

/-- Function update of one set of the L1 cache. -/
def updL1 (c : L1Cache) (i : Nat) (s : L1Set) : L1Cache :=
  fun j => if j = i then s else c j

/-- Read way `i` (0..3) of a set; indices ≥ 3 alias way 3 (the C code only
uses 0..3). -/
def getWay (s : L1Set) : Nat → L1Entry
  | 0 => s.w0
  | 1 => s.w1
  | 2 => s.w2
  | _ => s.w3

/-- Replace way `i` (0..3) of a set. -/
def setWay (s : L1Set) : Nat → L1Entry → L1Set
  | 0, e => { s with w0 := e }
  | 1, e => { s with w1 := e }
  | 2, e => { s with w2 := e }
  | _, e => { s with w3 := e }

/-- The all-invalid (zero `v_r_d_tag`) L1 entry. -/
def zeroL1Entry : L1Entry :=
  { valid := false, ref := false, dirty := false, tag := 0, line := zeroLine }

/-- An L1 set of four all-zero entries. -/
def zeroSet : L1Set :=
  { w0 := zeroL1Entry, w1 := zeroL1Entry, w2 := zeroL1Entry, w3 := zeroL1Entry }

/-- `l1_initialize`: zeroes every entry's `v_r_d_tag` state word (the cache
line data array is not touched by the C loop). -/
def l1_initialize (c : L1Cache) : L1Cache :=
  fun i =>
    { w0 := { valid := false, ref := false, dirty := false, tag := 0, line := (c i).w0.line }
      w1 := { valid := false, ref := false, dirty := false, tag := 0, line := (c i).w1.line }
      w2 := { valid := false, ref := false, dirty := false, tag := 0, line := (c i).w2.line }
      w3 := { valid := false, ref := false, dirty := false, tag := 0, line := (c i).w3.line } }

/-- Index of the first way (scanning 0..3) that is valid with the given tag,
as in the `l1_cache_access` loop. -/
def findWay (s : L1Set) (tg : Nat) : Option Nat :=
  if s.w0.valid && (s.w0.tag == tg) then some 0
  else if s.w1.valid && (s.w1.tag == tg) then some 1
  else if s.w2.valid && (s.w2.tag == tg) then some 2
  else if s.w3.valid && (s.w3.tag == tg) then some 3
  else none

/-- Result of `l1_cache_access`: the cache plus the post-call values of the
`read_data` and `status` output parameters. -/
structure L1AccessOut where
  cache : L1Cache
  read_data : Word
  status : Nat

/-- `l1_cache_access`: single-word read/write. On a hit (first valid way with
matching tag) the reference bit is set, the read (if enabled) returns the
pre-write word, the write (if enabled) stores the word and sets the dirty
bit, and status bit 0 is set. On a miss only status bit 0 is cleared. -/
def l1_cache_access (c : L1Cache) (address write_data control : Nat)
    (read_data0 : Word) (status0 : Nat) : L1AccessOut :=
  let si := l1SetIndex address
  let tg := l1Tag address
  let off := wordOffset address
  let s := c si
  match findWay s tg with
  | some i =>
      let e := getWay s i
      let e1 := { e with ref := true }
      let rd := if (control &&& 1) != 0 then e1.line off else read_data0
      let e2 := if (control &&& 2) != 0 then
                  { e1 with line := setWord e1.line off write_data, dirty := true }
                else e1
      { cache := updL1 c si (setWay s i e2), read_data := rd, status := status0 ||| 1 }
  | none => { cache := c, read_data := read_data0, status := status0 &&& 0xFE }

/-- Index of the first way (scanning 0..3) with a clear valid bit, as in the
first half of the `l1_insert_line` loop. -/
def firstInvalidWay (s : L1Set) : Option Nat :=
  if !s.w0.valid then some 0
  else if !s.w1.valid then some 1
  else if !s.w2.valid then some 2
  else if !s.w3.valid then some 3
  else none

/-- One step of the NRU category scan of `l1_insert_line`: record the first
way index seen in each of the categories (r=0,d=0), (r=0,d=1), (r=1,d=0). -/
def catStep (e : L1Entry) (i : Nat) (acc : Option Nat × Option Nat × Option Nat) :
    Option Nat × Option Nat × Option Nat :=
  match acc with
  | (r0d0, r0d1, r1d0) =>
    if !e.ref && !e.dirty then
      (if r0d0 = none then some i else r0d0, r0d1, r1d0)
    else if !e.ref && e.dirty then
      (r0d0, if r0d1 = none then some i else r0d1, r1d0)
    else if e.ref && !e.dirty then
      (r0d0, r0d1, if r1d0 = none then some i else r1d0)
    else acc

/-- The category scan over ways 0..3 (in order). -/
def catScan (s : L1Set) : Option Nat × Option Nat × Option Nat :=
  catStep s.w3 3 (catStep s.w2 2 (catStep s.w1 1 (catStep s.w0 0 (none, none, none))))

/-- The way `l1_insert_line` selects for replacement when all four ways are
valid: first (r=0,d=0) way, else first (r=0,d=1) way, else first (r=1,d=0)
way, else way 0. -/
def chooseWay (s : L1Set) : Nat :=
  match catScan s with
  | (some i, _, _) => i
  | (none, some i, _) => i
  | (none, none, some i) => i
  | (none, none, none) => 0

/-- Result of `l1_insert_line`: the cache plus the post-call values of the
`evicted_writeback_address`, `evicted_writeback_data` and `status` output
parameters. -/
structure L1InsertOut where
  cache : L1Cache
  ev_addr : Nat
  ev_data : Line
  status : Nat

/-- `l1_insert_line`: insert a line. A way with a clear valid bit is filled
immediately (valid set, dirty and reference cleared, tag written, status bit
0 cleared). Otherwise the NRU choice is overwritten; if it was dirty its
address `(tag << 14) | (set_index << 5)` and line are reported with status
bit 0 set. The step-2 overwrite sets valid, clears dirty and writes the tag
but leaves the reference bit unchanged (as in the C code). -/
def l1_insert_line (c : L1Cache) (address : Nat) (write_data : Line)
    (ev_addr0 : Nat) (ev_data0 : Line) (status0 : Nat) : L1InsertOut :=
  let si := l1SetIndex address
  let tg := l1Tag address
  let s := c si
  match firstInvalidWay s with
  | some i =>
      let e := getWay s i
      let e2 := { e with line := write_data, valid := true, dirty := false,
                         ref := false, tag := tg }
      { cache := updL1 c si (setWay s i e2), ev_addr := ev_addr0,
        ev_data := ev_data0, status := status0 &&& 0xFE }
  | none =>
      let k := chooseWay s
      let e := getWay s k
      let ev_addr := if e.dirty then (e.tag <<< 14) ||| (si <<< 5) else ev_addr0
      let ev_data := if e.dirty then e.line else ev_data0
      let st := if e.dirty then status0 ||| 1 else status0 &&& 0xFE
      let e2 := { e with line := write_data, valid := true, dirty := false, tag := tg }
      { cache := updL1 c si (setWay s k e2), ev_addr := ev_addr,
        ev_data := ev_data, status := st }

/-- `l1_clear_r_bits` applied to a single set. -/
def clearRefSet (s : L1Set) : L1Set :=
  { w0 := { s.w0 with ref := false }, w1 := { s.w1 with ref := false }
    w2 := { s.w2 with ref := false }, w3 := { s.w3 with ref := false } }

/-- `l1_clear_r_bits`: clear the reference bit of every entry in every set. -/
def l1_clear_r_bits (c : L1Cache) : L1Cache := fun i => clearRefSet (c i)

/-! ## L2 cache (`l2_cache.c`) -/

/-- One L2 cache entry: the fields packed in the C `v_d_tag` word plus the
cache line data. -/
structure L2Entry where
  valid : Bool
  dirty : Bool
  tag : Nat
  line : Line

/-- The L2 cache: 32768 entries, modelled as a total function on indices. -/
abbrev L2Cache := Nat → L2Entry

/-- Function update of one entry of the L2 cache. -/
def updL2 (c : L2Cache) (i : Nat) (e : L2Entry) : L2Cache :=
  fun j => if j = i then e else c j

/-- The all-invalid (zero `v_d_tag`) L2 entry. -/
def zeroL2Entry : L2Entry :=
  { valid := false, dirty := false, tag := 0, line := zeroLine }

/-- `l2_initialize`: clears ONLY the valid bit of every entry
(`v_d_tag &= ~L2_VBIT_MASK`); the dirty bit, tag and line are retained. -/
def l2_initialize (c : L2Cache) : L2Cache :=
  fun i => { c i with valid := false }

/-- Result of `l2_cache_access`: the cache plus the post-call values of the
`read_data` and `status` output parameters. -/
structure L2AccessOut where
  cache : L2Cache
  read_data : Line
  status : Nat

/-- `l2_cache_access`: whole-line read/write. Miss (entry invalid or tag
mismatch) only clears status bit 0. On a hit the read (if enabled) returns
the pre-write line, the write (if enabled) stores the line and sets the
dirty bit, and status bit 0 is set. -/
def l2_cache_access (c : L2Cache) (address : Nat) (write_data : Line)
    (control : Nat) (read_data0 : Line) (status0 : Nat) : L2AccessOut :=
  let idx := l2Index address
  let tg := l2Tag address
  let e := c idx
  if !e.valid || (e.tag != tg) then
    { cache := c, read_data := read_data0, status := status0 &&& 0xFE }
  else
    let rd := if (control &&& 1) != 0 then e.line else read_data0
    let c2 := if (control &&& 2) != 0 then
                updL2 c idx { e with line := write_data, dirty := true }
              else c
    { cache := c2, read_data := rd, status := status0 ||| 1 }

/-- Result of `l2_insert_line`: the cache plus the post-call values of the
`evicted_writeback_address`, `evicted_writeback_data` and `status` output
parameters. -/
structure L2InsertOut where
  cache : L2Cache
  ev_addr : Nat
  ev_data : Line
  status : Nat

/-- `l2_insert_line`: insert a line at the address's index. If the existing
entry is not dirty or not valid it is overwritten and status bit 0 is
cleared; otherwise its address `(tag << 20) | (index << 5)` and line are
reported with status bit 0 set, then it is overwritten. The overwrite sets
`v_d_tag = VBIT | tag` (valid, not dirty) and copies `write_data`. -/
def l2_insert_line (c : L2Cache) (address : Nat) (write_data : Line)
    (ev_addr0 : Nat) (ev_data0 : Line) (status0 : Nat) : L2InsertOut :=
  let idx := l2Index address
  let tg := l2Tag address
  let e := c idx
  if !e.dirty || !e.valid then
    { cache := updL2 c idx { valid := true, dirty := false, tag := tg, line := write_data }
      ev_addr := ev_addr0, ev_data := ev_data0, status := status0 &&& 0xFE }
  else
    { cache := updL2 c idx { valid := true, dirty := false, tag := tg, line := write_data }
      ev_addr := (e.tag <<< 20) ||| (idx <<< 5), ev_data := e.line
      status := status0 ||| 1 }

/-! ## Main memory (`main_memory.c`) -/

/-- Main memory: the recorded size in bytes and a word-indexed store. -/
structure MainMemory where
  size_in_bytes : Nat
  mem : Nat → Word

/-- `main_memory_initialize`: fatal (`none`) if the size is not a multiple
of 32 (`size_in_bytes & 0x1F`); otherwise a zero-filled store. -/
def main_memory_initialize (size : Nat) : Option MainMemory :=
  if (size &&& 0x1F) != 0 then none
  else some { size_in_bytes := size, mem := fun _ => 0 }

/-- Read 8 consecutive words starting at word index `base`. -/
def readLine (mem : Nat → Word) (base : Nat) : Line :=
  fun i => mem (base + i.val)

/-- Write 8 consecutive words starting at word index `base`. -/
def writeLine (mem : Nat → Word) (base : Nat) (d : Line) : Nat → Word :=
  fun j =>
    if j = base then d 0
    else if j = base + 1 then d 1
    else if j = base + 2 then d 2
    else if j = base + 3 then d 3
    else if j = base + 4 then d 4
    else if j = base + 5 then d 5
    else if j = base + 6 then d 6
    else if j = base + 7 then d 7
    else mem j

/-- Result of `main_memory_access`: the memory plus the post-call value of
the `read_data` output buffer. -/
structure MMOut where
  mm : MainMemory
  read_data : Line

/-- `main_memory_access`: fatal (`none`) if `address >= size_in_bytes`.
Otherwise the containing line starts at word index
`(address & ~0x1f) >> 2`; read (if enabled) copies it out before the write
(if enabled) copies `write_data` in. -/
def main_memory_access (m : MainMemory) (address : Nat) (write_data : Line)
    (control : Nat) (read_data0 : Line) : Option MMOut :=
  if address ≥ m.size_in_bytes then none
  else
    let base := (address &&& 0xFFFFFFE0) >>> 2
    let rd := if (control &&& 1) != 0 then readLine m.mem base else read_data0
    let mem2 := if (control &&& 2) != 0 then writeLine m.mem base write_data else m.mem
    some { mm := { m with mem := mem2 }, read_data := rd }

/-! ## Memory subsystem controller (`memory_subsystem.c`) -/

/-- The whole memory subsystem: both caches, main memory and the two global
miss counters. -/
structure MemState where
  l1 : L1Cache
  l2 : L2Cache
  mm : MainMemory
  num_l1_misses : Nat
  num_l2_misses : Nat

/-- `memory_handle_l2_miss(address, control)`: on a read-caused miss the
line is fetched from main memory into the local `cache_line` buffer; on a
write-caused miss the fetch is skipped and `cache_line` keeps its
(uninitialized, modelled all-zero) contents. The line is inserted into L2;
if the insert reports a write-back the evicted line goes to main memory. -/
def memory_handle_l2_miss (s : MemState) (address control : Nat) : Option MemState :=
  let fetch : Option (MainMemory × Line) :=
    if (control &&& 1) != 0 then
      (main_memory_access s.mm address zeroLine 1 zeroLine).map fun o => (o.mm, o.read_data)
    else some (s.mm, zeroLine)
  match fetch with
  | none => none
  | some (mm1, cache_line) =>
    let r := l2_insert_line s.l2 address cache_line 0 zeroLine 0
    let s1 : MemState := { s with mm := mm1, l2 := r.cache }
    if (r.status &&& 1) != 0 then
      match main_memory_access s1.mm r.ev_addr r.ev_data 2 zeroLine with
      | none => none
      | some o => some { s1 with mm := o.mm }
    else some s1

/-- `memory_handle_l1_miss(address)`: read the containing line from L2
(handling an L2 miss by `memory_handle_l2_miss` plus a retry, incrementing
`num_l2_misses`), insert it into L1, and if a dirty line was evicted write it
back to L2 — on an L2 miss there, run the write-caused miss handler and
retry. As in the C source, the retried L2 write passes `read_data` (the line
fetched for the original miss address), not the evicted line's data. -/
def memory_handle_l1_miss (s : MemState) (address : Nat) : Option MemState :=
  let a1 := l2_cache_access s.l2 address zeroLine 1 zeroLine 0
  let step2 : Option (MemState × Line × Nat) :=
    if (a1.status &&& 1) == 0 then
      match memory_handle_l2_miss
          { s with l2 := a1.cache, num_l2_misses := s.num_l2_misses + 1 } address 1 with
      | none => none
      | some s2 =>
        let a2 := l2_cache_access s2.l2 address zeroLine 1 a1.read_data a1.status
        some ({ s2 with l2 := a2.cache }, a2.read_data, a2.status)
    else some ({ s with l2 := a1.cache }, a1.read_data, a1.status)
  match step2 with
  | none => none
  | some (s3, read_data, st) =>
    let ins := l1_insert_line s3.l1 address read_data 0 zeroLine st
    let s4 := { s3 with l1 := ins.cache }
    if (ins.status &&& 1) != 0 then
      let wb1 := l2_cache_access s4.l2 ins.ev_addr ins.ev_data 2 zeroLine ins.status
      let s5 := { s4 with l2 := wb1.cache }
      if (wb1.status &&& 1) == 0 then
        match memory_handle_l2_miss s5 ins.ev_addr 2 with
        | none => none
        | some s6 =>
          let wb2 := l2_cache_access s6.l2 ins.ev_addr read_data 2 zeroLine wb1.status
          some { s6 with l2 := wb2.cache }
      else some s5
    else some s4

/-- Post-call state and `read_data` value of `memory_access`. -/
structure AccessOut where
  state : MemState
  read_data : Word

/-- `memory_access(address, write_data, control, read_data)`: try L1; on a
miss, increment `num_l1_misses`, run the L1-miss handler and retry. -/
def memory_access (s : MemState) (address write_data control : Nat)
    (read_data0 : Word) : Option AccessOut :=
  let a1 := l1_cache_access s.l1 address write_data control read_data0 0
  if (a1.status &&& 1) == 0 then
    match memory_handle_l1_miss
        { s with l1 := a1.cache, num_l1_misses := s.num_l1_misses + 1 } address with
    | none => none
    | some s2 =>
      let a2 := l1_cache_access s2.l1 address write_data control a1.read_data 0
      some { state := { s2 with l1 := a2.cache }, read_data := a2.read_data }
  else some { state := { s with l1 := a1.cache }, read_data := a1.read_data }

/-- `memory_handle_clock_interrupt`: clear all L1 reference bits. -/
def memory_handle_clock_interrupt (s : MemState) : MemState :=
  { s with l1 := l1_clear_r_bits s.l1 }

/-- `memory_subsystem_initialize(size)`: initialize main memory (fatal on a
size that is not a multiple of 32), L1 and L2, and reset both counters. -/
def memory_subsystem_initialize (size : Nat) (s : MemState) : Option MemState :=
  match main_memory_initialize size with
  | none => none
  | some mm =>
    some { l1 := l1_initialize s.l1, l2 := l2_initialize s.l2, mm := mm,
           num_l1_misses := 0, num_l2_misses := 0 }

/-- The pristine process state: C zero-initialized globals (all cache state
words zero, null/empty main memory, counters zero). -/
def initialState : MemState :=
  { l1 := fun _ => zeroSet, l2 := fun _ => zeroL2Entry,
    mm := { size_in_bytes := 0, mem := fun _ => 0 },
    num_l1_misses := 0, num_l2_misses := 0 }

/-- The externally invocable operations of the subsystem. -/
inductive MemOp where
  | access (address write_data control : Nat)
  | clock
  | init (size : Nat)

/-- Run one operation (the `read_data` of an access is discarded). -/
def runOp (s : MemState) : MemOp → Option MemState
  | .access a w c => (memory_access s a w c 0).map AccessOut.state
  | .clock => some (memory_handle_clock_interrupt s)
  | .init n => memory_subsystem_initialize n s

/-- Run a list of operations in order. -/
def runOps (s : MemState) : List MemOp → Option MemState
  | [] => some s
  | op :: rest => (runOp s op).bind fun s2 => runOps s2 rest

/-! ## Definitions used by the claim theorems -/

/-- All four ways of a set are valid (the condition under which
`l1_insert_line` reaches its NRU selection step). -/
def allValid (s : L1Set) : Bool :=
  s.w0.valid && s.w1.valid && s.w2.valid && s.w3.valid

/-- NRU replacement choice as the specification words it: the first way
(scanning 0..3) with (r=0,d=0), else the first with (r=0,d=1), else the
first with (r=1,d=0), else way 0. Stated independently of the code's
single-pass category recording, to be compared with `chooseWay`. -/
def specNRUChoice (s : L1Set) : Nat :=
  if !s.w0.ref && !s.w0.dirty then 0
  else if !s.w1.ref && !s.w1.dirty then 1
  else if !s.w2.ref && !s.w2.dirty then 2
  else if !s.w3.ref && !s.w3.dirty then 3
  else if !s.w0.ref && s.w0.dirty then 0
  else if !s.w1.ref && s.w1.dirty then 1
  else if !s.w2.ref && s.w2.dirty then 2
  else if !s.w3.ref && s.w3.dirty then 3
  else if s.w0.ref && !s.w0.dirty then 0
  else if s.w1.ref && !s.w1.dirty then 1
  else if s.w2.ref && !s.w2.dirty then 2
  else if s.w3.ref && !s.w3.dirty then 3
  else 0

/-- A full L1 set in which every way is valid, referenced and clean: the
NRU scan then records only the (r=1,d=0) category. -/
def c5set : L1Set :=
  { w0 := { valid := true, ref := true, dirty := false, tag := 0, line := zeroLine }
    w1 := { valid := true, ref := true, dirty := false, tag := 1, line := zeroLine }
    w2 := { valid := true, ref := true, dirty := false, tag := 2, line := zeroLine }
    w3 := { valid := true, ref := true, dirty := false, tag := 3, line := zeroLine } }

/-- An L1 cache whose every set is `c5set`. -/
def c5cache : L1Cache := fun _ => c5set

/-- Operation trace forcing the write-caused L2-miss cascade: write 0xAAAA
to address 0 (L1 set 0, L2 index 0), fill L1 set 0 with the lines of
1048576, 16384 and 32768 (1048576 shares L2 index 0 and displaces line 0's
L2 entry), age the reference bits, re-reference the three clean ways, then
access 49152: its insertion evicts the dirty line 0 from L1 and the
write-back to L2 misses (L2 index 0 now holds line 1048576's tag). -/
def c1trace : List MemOp :=
  [.init 2097152, .access 0 0xAAAA 2, .access 1048576 0 1, .access 16384 0 1,
   .access 32768 0 1, .clock, .access 1048576 0 1, .access 16384 0 1,
   .access 32768 0 1, .access 49152 0 1]

/-- Reading address 0 back after `c1trace` (no operation of `c1trace` after
the initial write is a write to address 0). -/
def c1readback : Option Word :=
  (runOps initialState c1trace).bind fun s =>
    (memory_access s 0 0 1 0).map AccessOut.read_data

/-- Operation trace reaching a dirty L2 line and then re-initializing:
write to address 0, fill L1 set 0, age and re-reference the clean ways, and
access 65536 so the dirty line 0 is evicted from L1 and written back into
L2 (making L2 entry 0 dirty); finally re-initialize the subsystem. -/
def c6ops : List MemOp :=
  [.init 2097152, .access 0 0xAAAA 2, .access 16384 0 1, .access 32768 0 1,
   .access 49152 0 1, .clock, .access 16384 0 1, .access 32768 0 1,
   .access 49152 0 1, .access 65536 0 1, .init 2097152]

/-- A single entry's dirty-implies-valid invariant (L1). -/
def entryInvL1 (e : L1Entry) : Prop := e.dirty = true → e.valid = true

/-- Dirty-implies-valid for all four ways of a set. -/
def setInv (s : L1Set) : Prop :=
  entryInvL1 s.w0 ∧ entryInvL1 s.w1 ∧ entryInvL1 s.w2 ∧ entryInvL1 s.w3

/-- Dirty-implies-valid for every entry of the L1 cache. -/
def l1Inv (c : L1Cache) : Prop := ∀ i, setInv (c i)

/-- Dirty-implies-valid for every entry of the L2 cache. -/
def l2Inv (c : L2Cache) : Prop := ∀ i, (c i).dirty = true → (c i).valid = true

/-- Dirty-implies-valid for every cache entry of the subsystem. -/
def stInv (s : MemState) : Prop := l1Inv s.l1 ∧ l2Inv s.l2

/-- An operation list that contains no re-initialization. -/
def noInit : List MemOp → Bool
  | [] => true
  | .init _ :: _ => false
  | _ :: rest => noInit rest

/-- Concrete access/clock operations used to witness the amended invariant
claim. -/
def c6wOps : List MemOp := [.access 0 7 2, .clock, .access 32 5 1]

/-- The state produced by initializing the pristine state with 64 bytes of
main memory. -/
def c6wInit : MemState :=
  ( memory_subsystem_initialize 64 initialState).getD initialState

/-- The state reached from `c6wInit` by running `c6wOps`. -/
def c6wit : MemState := (runOps c6wInit c6wOps).getD initialState

/-- The pair of `(num_l1_misses, num_l2_misses)` counter values after a
first and after a second `memory_access` with the same parameters. -/
def countersAfter (s : MemState) (a w c : Nat) : Option (Nat × Nat × Nat × Nat) :=
  (memory_access s a w c 0).bind fun p =>
    (memory_access p.state a w c 0).map fun q =>
      (p.state.num_l1_misses, p.state.num_l2_misses,
       q.state.num_l1_misses, q.state.num_l2_misses)

/-- An L2 cache whose every entry is valid, dirty, with tag 7 and a line of
nines: exercises the write-back branch of `l2_insert_line`. -/
def c7cache : L2Cache :=
  fun _ => { valid := true, dirty := true, tag := 7, line := fun _ => 9 }

/-- A configured 64-byte main memory. -/
def mm64 : MainMemory := { size_in_bytes := 64, mem := fun _ => 0 }

/-- A full L1 set in which ways 0 and 2 both carry (r=0,d=0) while ways 1
and 3 do not: the NRU tie-break must pick way 0. -/
def c4set : L1Set :=
  { w0 := { valid := true, ref := false, dirty := false, tag := 0, line := zeroLine }
    w1 := { valid := true, ref := true, dirty := true, tag := 1, line := zeroLine }
    w2 := { valid := true, ref := false, dirty := false, tag := 2, line := zeroLine }
    w3 := { valid := true, ref := true, dirty := false, tag := 3, line := zeroLine } }

/-! ## Helper lemmas -/

set_option maxRecDepth 200000

theorem and_fe_and_one (s : Nat) : s &&& 0xFE &&& 1 = 0 := by
  apply Nat.eq_of_testBit_eq
  intro i
  simp only [Nat.testBit_land, Nat.zero_testBit]
  rcases i with _ | i
  · simp [Nat.testBit_zero]
  · simp [Nat.testBit_succ]

theorem or_one_and_one (s : Nat) : (s ||| 1) &&& 1 = 1 := by
  apply Nat.eq_of_testBit_eq
  intro i
  simp only [Nat.testBit_land, Nat.testBit_lor]
  rcases i with _ | i
  · simp [Nat.testBit_zero]
  · simp [Nat.testBit_succ]

theorem or_one_and_fe (s : Nat) : (s ||| 1) &&& 0xFE = s &&& 0xFE := by
  apply Nat.eq_of_testBit_eq
  intro i
  simp only [Nat.testBit_land, Nat.testBit_lor]
  rcases i with _ | i
  · simp [Nat.testBit_zero]
  · simp [Nat.testBit_succ]

theorem and_fe_and_fe (s : Nat) : s &&& 0xFE &&& 0xFE = s &&& 0xFE := by
  apply Nat.eq_of_testBit_eq
  intro i
  simp only [Nat.testBit_land]
  cases h : Nat.testBit 0xFE i <;> simp [h]

theorem and_fe_mod_two (s : Nat) : (s &&& 0xFE) % 2 = 0 := by
  rw [← Nat.and_one_is_mod]
  exact and_fe_and_one s

theorem or_one_mod_two (s : Nat) : (s ||| 1) % 2 = 1 := by
  rw [← Nat.and_one_is_mod]
  exact or_one_and_one s

theorem chooseWay_lt (s : L1Set) : chooseWay s < 4 := by
  rcases s with ⟨⟨v0, r0, d0, t0, ln0⟩, ⟨v1, r1, d1, t1, ln1⟩,
    ⟨v2, r2, d2, t2, ln2⟩, ⟨v3, r3, d3, t3, ln3⟩⟩
  cases r0 <;> cases d0 <;> cases r1 <;> cases d1 <;>
    cases r2 <;> cases d2 <;> cases r3 <;> cases d3 <;>
    simp [chooseWay, catScan, catStep]

theorem getWay_setWay_self (s : L1Set) (k : Nat) (e : L1Entry) (hk : k < 4) :
    getWay (setWay s k e) k = e := by
  rcases k with _ | _ | _ | _ | k
  · rfl
  · rfl
  · rfl
  · rfl
  · omega

/-! ## Claim theorems -/

/-- Claim C1 (code_bug evidence): running `c1trace` — which writes 0xAAAA to
address 0 and then performs only reads and a clock interrupt, arranged so
that address 0's dirty line is evicted from L1 and its write-back misses in
L2 — and then reading address 0 back yields 0, not the written 0xAAAA: the
round-trip value does not survive the write-caused L2-miss cascade, because
the retried L2 write stores `read_data` instead of the evicted line. -/
theorem C1_roundtrip_lost : c1readback = some 0 ∧ (0 : Nat) ≠ 0xAAAA :=
  ⟨by decide, by decide⟩

/-- Claim C2 (code_bug evidence): just before the final operation of
`c1trace`, L1 set 0 way 0 holds the dirty line of address 0 with word 0 =
0xAAAA (this is the line about to be evicted, whose write-back to L2
misses); after that operation the L2 entry for address 0 (index 0, tag 0)
holds 0 at word 0 — the line fetched for the original miss address 49152 —
and not the evicted line's 0xAAAA. -/
theorem C2_retry_commits_wrong_line :
    ((runOps initialState (c1trace.take 9)).map fun s =>
      ((s.l1 0).w0.valid, (s.l1 0).w0.dirty, (s.l1 0).w0.tag, (s.l1 0).w0.line 0)) =
      some (true, true, 0, 0xAAAA) ∧
    ((runOps initialState c1trace).map fun s =>
      ((s.l2 0).valid, (s.l2 0).tag, (s.l2 0).line 0)) = some (true, 0, 0) :=
  ⟨by decide, by decide⟩

/-- Claim C6 (counterexample): the state reached from the pristine state by
`c6ops` — initialization, accesses that leave L2 entry 0 dirty, then
re-initialization — has an L2 entry with dirty=true and valid=false,
because `l2_initialize` clears only the valid bit. -/
theorem C6_counterexample :
    ((runOps initialState c6ops).map fun s => ((s.l2 0).dirty, (s.l2 0).valid)) =
      some (true, false) := by decide

/-- Claim C9: `main_memory_access` fails fatally exactly when the address is
at least the configured size; in particular the boundary address equal to
the size is rejected, and every smaller address completes. -/
theorem C9_bounds (m : MainMemory) (wd rd : Line) (ctl : Nat) :
    (∀ a, main_memory_access m a wd ctl rd = none ↔ m.size_in_bytes ≤ a) ∧
    main_memory_access m m.size_in_bytes wd ctl rd = none := by
  have h : ∀ a, main_memory_access m a wd ctl rd = none ↔ m.size_in_bytes ≤ a := by
    intro a
    by_cases hle : m.size_in_bytes ≤ a
    · simp [main_memory_access, hle]
    · simp [main_memory_access, hle]
  exact ⟨h, (h _).mpr le_rfl⟩

/-- Claim C4: whenever `l1_insert_line`'s target set has all four ways
valid, the way it overwrites (`chooseWay`, the selection actually used by
`l1_insert_line` in that case) is the specification's NRU choice: the first
way with (r=0,d=0), else the first with (r=0,d=1), else the first with
(r=1,d=0), else way 0. -/
theorem C4_nru_selection (s : L1Set) (h : allValid s = true) :
    chooseWay s = specNRUChoice s := by
  rcases s with ⟨⟨v0, r0, d0, t0, ln0⟩, ⟨v1, r1, d1, t1, ln1⟩,
    ⟨v2, r2, d2, t2, ln2⟩, ⟨v3, r3, d3, t3, ln3⟩⟩
  cases r0 <;> cases d0 <;> cases r1 <;> cases d1 <;>
    cases r2 <;> cases d2 <;> cases r3 <;> cases d3 <;> rfl

/-- Claim C4 witness: on a full set where ways 0 and 2 both carry
(r=0,d=0), the code's selection agrees with the specification's and picks
way 0 (first encountered wins). -/
theorem C4_nru_selection_witness :
    allValid c4set = true ∧ chooseWay c4set = specNRUChoice c4set ∧
    specNRUChoice c4set = 0 :=
  ⟨by decide, C4_nru_selection c4set (by decide), by decide⟩

/-- Claim C5 (counterexample): on a full set whose four ways are all
(r=1,d=0), `l1_insert_line` selects way 0 by the step-2 scan, yet after the
call the overwritten entry's reference bit is still 1 — the claim that a
step-2 overwrite ends with reference = 0 is false on the code. -/
theorem C5_counterexample :
    allValid (c5cache (l1SetIndex 65536)) = true ∧
    chooseWay (c5cache (l1SetIndex 65536)) = 0 ∧
    ((l1_insert_line c5cache 65536 zeroLine 0 zeroLine 0).cache
      (l1SetIndex 65536)).w0.ref = true :=
  ⟨by decide, by decide, by decide⟩

/-- Claim C5 (amended): for a step-2 selection (no invalid way in the target
set), the overwrite copies the new line, sets valid, clears dirty and sets
the new tag — but leaves the reference bit unchanged from the selected
entry's previous value, rather than clearing it. -/
theorem C5_amended (c : L1Cache) (a : Nat) (wd : Line) (ea : Nat) (ed : Line)
    (st : Nat) (h : firstInvalidWay (c (l1SetIndex a)) = none) :
    getWay ((l1_insert_line c a wd ea ed st).cache (l1SetIndex a))
        (chooseWay (c (l1SetIndex a))) =
      { getWay (c (l1SetIndex a)) (chooseWay (c (l1SetIndex a))) with
        line := wd, valid := true, dirty := false, tag := l1Tag a } := by
  have hk : chooseWay (c (l1SetIndex a)) < 4 := chooseWay_lt _
  simp only [l1_insert_line, h]
  simp only [updL1, if_pos]
  exact getWay_setWay_self _ _ _ hk

/-- Claim C5 amended witness: the amended statement at the concrete full set
`c5set` and address 65536. -/
theorem C5_amended_witness :
    getWay ((l1_insert_line c5cache 65536 zeroLine 0 zeroLine 0).cache
        (l1SetIndex 65536)) (chooseWay (c5cache (l1SetIndex 65536))) =
      { getWay (c5cache (l1SetIndex 65536)) (chooseWay (c5cache (l1SetIndex 65536))) with
        line := zeroLine, valid := true, dirty := false, tag := l1Tag 65536 } :=
  C5_amended c5cache 65536 zeroLine 0 zeroLine 0 rfl

/-- Claim C7: `l2_insert_line` reports needs_writeback (status bit 0) false
when the existing entry at the address's index is invalid or clean, leaving
the evicted-address/data outputs untouched; otherwise it reports true and
outputs the reconstructed address `(existing_tag << 20) | (index << 5)` and
the old line; in both cases the entry afterwards holds `write_data`, is
valid, not dirty, and carries the address's tag bits 20-31. -/
theorem C7_l2_insert_line (c : L2Cache) (a : Nat) (wd : Line) (ea : Nat)
    (ed : Line) (st : Nat) :
    ((c (l2Index a)).valid = false ∨ (c (l2Index a)).dirty = false →
      (l2_insert_line c a wd ea ed st).status &&& 1 = 0 ∧
      (l2_insert_line c a wd ea ed st).ev_addr = ea ∧
      (l2_insert_line c a wd ea ed st).ev_data = ed) ∧
    ((c (l2Index a)).valid = true → (c (l2Index a)).dirty = true →
      (l2_insert_line c a wd ea ed st).status &&& 1 = 1 ∧
      (l2_insert_line c a wd ea ed st).ev_addr =
        ((c (l2Index a)).tag <<< 20) ||| (l2Index a <<< 5) ∧
      (l2_insert_line c a wd ea ed st).ev_data = (c (l2Index a)).line) ∧
    (l2_insert_line c a wd ea ed st).cache (l2Index a) =
      { valid := true, dirty := false, tag := l2Tag a, line := wd } := by
  cases hv : (c (l2Index a)).valid <;> cases hd : (c (l2Index a)).dirty <;>
    simp [l2_insert_line, hv, hd, updL2, and_fe_and_one, or_one_and_one,
      and_fe_mod_two, or_one_mod_two]

/-- Claim C7 witness: the write-back branch at a cache whose entry for
address 0 is valid and dirty with tag 7, plus the overwrite outcome. -/
theorem C7_l2_insert_line_witness :
    (l2_insert_line c7cache 0 zeroLine 0 zeroLine 0).status &&& 1 = 1 ∧
    (l2_insert_line c7cache 0 zeroLine 0 zeroLine 0).ev_addr =
      ((c7cache (l2Index 0)).tag <<< 20) ||| (l2Index 0 <<< 5) ∧
    (l2_insert_line c7cache 0 zeroLine 0 zeroLine 0).ev_data =
      (c7cache (l2Index 0)).line ∧
    (l2_insert_line c7cache 0 zeroLine 0 zeroLine 0).cache (l2Index 0) =
      { valid := true, dirty := false, tag := l2Tag 0, line := zeroLine } := by
  have h := C7_l2_insert_line c7cache 0 zeroLine 0 zeroLine 0
  exact ⟨(h.2.1 rfl rfl).1, (h.2.1 rfl rfl).2.1, (h.2.1 rfl rfl).2.2, h.2.2⟩

/-- Claim C8: a missing `l1_cache_access` (no valid way with matching tag in
the decoded set) and a missing `l2_cache_access` (entry invalid or tag
mismatch at the decoded index) report a miss (status bit 0 cleared, the
only status change) and have no other effect: the cache is returned
unchanged and the `read_data` output keeps its previous value, for every
value of the read/write control flags. -/
theorem C8_miss_no_effect :
    (∀ (c : L1Cache) (a w ctl rd st : Nat),
      findWay (c (l1SetIndex a)) (l1Tag a) = none →
      l1_cache_access c a w ctl rd st = ⟨c, rd, st &&& 0xFE⟩) ∧
    (∀ (c : L2Cache) (a : Nat) (wd : Line) (ctl : Nat) (rd : Line) (st : Nat),
      (c (l2Index a)).valid = false ∨ (c (l2Index a)).tag ≠ l2Tag a →
      l2_cache_access c a wd ctl rd st = ⟨c, rd, st &&& 0xFE⟩) := by
  constructor
  · intro c a w ctl rd st h
    simp [l1_cache_access, h]
  · intro c a wd ctl rd st h
    rcases h with h | h
    · simp [l2_cache_access, h]
    · have hb : ((c (l2Index a)).tag != l2Tag a) = true := by
        simpa [bne_iff_ne] using h
      simp [l2_cache_access, hb]

/-- Claim C8 witness: a miss on the all-invalid L1 cache and on the
all-invalid L2 cache, with control = 3 (read and write both enabled) and
nonzero incoming outputs, leaves everything but status bit 0 unchanged. -/
theorem C8_miss_no_effect_witness :
    l1_cache_access (fun _ => zeroSet) 0 1 3 7 9 = ⟨(fun _ => zeroSet), 7, 9 &&& 0xFE⟩ ∧
    l2_cache_access (fun _ => zeroL2Entry) 0 zeroLine 3 zeroLine 9 =
      ⟨(fun _ => zeroL2Entry), zeroLine, 9 &&& 0xFE⟩ :=
  ⟨C8_miss_no_effect.1 (fun _ => zeroSet) 0 1 3 7 9 rfl,
   C8_miss_no_effect.2 (fun _ => zeroL2Entry) 0 zeroLine 3 zeroLine 9 (Or.inl rfl)⟩

/-- Claim C10: all four status-reporting cache operations modify only bit 0
of the status byte: bits 1-7 of the value passed in are intact in the value
returned. -/
theorem C10_status_frame :
    (∀ (c : L1Cache) (a w ctl rd st : Nat),
      (l1_cache_access c a w ctl rd st).status &&& 0xFE = st &&& 0xFE) ∧
    (∀ (c : L1Cache) (a : Nat) (wd : Line) (ea : Nat) (ed : Line) (st : Nat),
      (l1_insert_line c a wd ea ed st).status &&& 0xFE = st &&& 0xFE) ∧
    (∀ (c : L2Cache) (a : Nat) (wd : Line) (ctl : Nat) (rd : Line) (st : Nat),
      (l2_cache_access c a wd ctl rd st).status &&& 0xFE = st &&& 0xFE) ∧
    (∀ (c : L2Cache) (a : Nat) (wd : Line) (ea : Nat) (ed : Line) (st : Nat),
      (l2_insert_line c a wd ea ed st).status &&& 0xFE = st &&& 0xFE) := by
  refine ⟨?_, ?_, ?_, ?_⟩
  · intro c a w ctl rd st
    cases hf : findWay (c (l1SetIndex a)) (l1Tag a) <;>
      simp [l1_cache_access, hf, or_one_and_fe, and_fe_and_fe]
  · intro c a wd ea ed st
    cases hf : firstInvalidWay (c (l1SetIndex a)) <;>
      simp only [l1_insert_line, hf]
    · split <;> simp [or_one_and_fe, and_fe_and_fe]
    · simp [and_fe_and_fe]
  · intro c a wd ctl rd st
    simp only [l2_cache_access]
    split <;> simp [or_one_and_fe, and_fe_and_fe]
  · intro c a wd ea ed st
    simp only [l2_insert_line]
    split <;> simp [or_one_and_fe, and_fe_and_fe]

/-- Claim C3: immediately after `memory_subsystem_initialize` (from any
prior process state), the first `memory_access` to any in-range address
leaves both miss counters at exactly 1 (they were reset to 0), and a second
`memory_access` to the same address leaves both at 1 — it increments
neither. The control flags and write data are arbitrary. -/
theorem C3_miss_accounting (size a w c : Nat) (sp : MemState)
    (hsz : size &&& 0x1F = 0) (ha : a < size) :
    ( memory_subsystem_initialize size sp).bind (fun s0 => countersAfter s0 a w c) =
      some (1, 1, 1, 1) := by
  have hna : ¬ size ≤ a := Nat.not_le.mpr ha
  cases hc2 : ((c &&& 2) != 0) <;>
    simp [countersAfter, memory_subsystem_initialize, main_memory_initialize, hsz,
      memory_access, memory_handle_l1_miss, memory_handle_l2_miss,
      l1_cache_access, l2_cache_access, l1_insert_line, l2_insert_line,
      main_memory_access, l1_initialize, l2_initialize, findWay, firstInvalidWay,
      updL1, updL2, getWay, setWay, readLine, zeroLine, hna, hc2]

/-- Claim C3 witness: 64 bytes of memory, a write access to address 0. -/
theorem C3_miss_accounting_witness :
    (64 &&& 0x1F : Nat) = 0 ∧ (0 : Nat) < 64 ∧
    ( memory_subsystem_initialize 64 initialState).bind
      (fun s0 => countersAfter s0 0 5 2) = some (1, 1, 1, 1) :=
  ⟨by decide, by decide, C3_miss_accounting 64 0 5 2 initialState (by decide) (by decide)⟩

theorem entryInvL1_getWay (s : L1Set) (i : Nat) (hs : setInv s) :
    entryInvL1 (getWay s i) := by
  obtain ⟨h0, h1, h2, h3⟩ := hs
  rcases i with _ | _ | _ | _ | i
  · exact h0
  · exact h1
  · exact h2
  · exact h3
  · exact h3

theorem setInv_setWay (s : L1Set) (k : Nat) (e : L1Entry)
    (hs : setInv s) (he : entryInvL1 e) : setInv (setWay s k e) := by
  obtain ⟨h0, h1, h2, h3⟩ := hs
  rcases k with _ | _ | _ | _ | k
  · exact ⟨he, h1, h2, h3⟩
  · exact ⟨h0, he, h2, h3⟩
  · exact ⟨h0, h1, he, h3⟩
  · exact ⟨h0, h1, h2, he⟩
  · exact ⟨h0, h1, h2, he⟩

theorem l1Inv_updL1 (c : L1Cache) (i : Nat) (s : L1Set)
    (hc : l1Inv c) (hs : setInv s) : l1Inv (updL1 c i s) := by
  intro j
  simp only [updL1]
  split
  · exact hs
  · exact hc j

theorem findWay_some_valid (s : L1Set) (tg i : Nat)
    (h : findWay s tg = some i) : (getWay s i).valid = true := by
  unfold findWay at h
  split at h
  · injection h with h2; subst h2; simp_all [getWay, Bool.and_eq_true]
  · split at h
    · injection h with h2; subst h2; simp_all [getWay, Bool.and_eq_true]
    · split at h
      · injection h with h2; subst h2; simp_all [getWay, Bool.and_eq_true]
      · split at h
        · injection h with h2; subst h2; simp_all [getWay, Bool.and_eq_true]
        · cases h

theorem l1Inv_access (c : L1Cache) (a w ctl rd st : Nat) (hc : l1Inv c) :
    l1Inv (l1_cache_access c a w ctl rd st).cache := by
  unfold l1_cache_access
  cases hf : findWay (c (l1SetIndex a)) (l1Tag a) <;> simp only [hf]
  · exact hc
  · apply l1Inv_updL1 _ _ _ hc
    apply setInv_setWay _ _ _ (hc _)
    unfold entryInvL1
    split
    · intro _
      exact findWay_some_valid _ _ _ hf
    · intro hd
      exact entryInvL1_getWay _ _ (hc _) hd

theorem l1Inv_insert (c : L1Cache) (a : Nat) (wd : Line) (ea : Nat)
    (ed : Line) (st : Nat) (hc : l1Inv c) :
    l1Inv (l1_insert_line c a wd ea ed st).cache := by
  unfold l1_insert_line
  cases hf : firstInvalidWay (c (l1SetIndex a)) <;> simp only [hf]
  · apply l1Inv_updL1 _ _ _ hc
    apply setInv_setWay _ _ _ (hc _)
    intro _
    rfl
  · apply l1Inv_updL1 _ _ _ hc
    apply setInv_setWay _ _ _ (hc _)
    intro _
    rfl

theorem l1Inv_clear (c : L1Cache) (hc : l1Inv c) : l1Inv (l1_clear_r_bits c) := by
  intro i
  obtain ⟨h0, h1, h2, h3⟩ := hc i
  exact ⟨h0, h1, h2, h3⟩

theorem l1Inv_init (c : L1Cache) : l1Inv ( l1_initialize c) := by
  intro i
  refine ⟨?_, ?_, ?_, ?_⟩ <;> intro h <;> cases h

theorem l2Inv_updL2 (c : L2Cache) (i : Nat) (e : L2Entry)
    (hc : l2Inv c) (he : e.dirty = true → e.valid = true) :
    l2Inv (updL2 c i e) := by
  intro j
  simp only [updL2]
  split
  · exact he
  · exact hc j

theorem l2Inv_access (c : L2Cache) (a : Nat) (wd : Line) (ctl : Nat)
    (rd : Line) (st : Nat) (hc : l2Inv c) :
    l2Inv (l2_cache_access c a wd ctl rd st).cache := by
  unfold l2_cache_access
  dsimp only
  rw [apply_ite L2AccessOut.cache]
  split
  · exact hc
  · rename_i hcond
    have hv : (c (l2Index a)).valid = true := by
      revert hcond
      cases (c (l2Index a)).valid <;> simp
    dsimp only
    split
    · exact l2Inv_updL2 _ _ _ hc (fun _ => hv)
    · exact hc

theorem l2Inv_insert (c : L2Cache) (a : Nat) (wd : Line) (ea : Nat)
    (ed : Line) (st : Nat) (hc : l2Inv c) :
    l2Inv (l2_insert_line c a wd ea ed st).cache := by
  unfold l2_insert_line
  dsimp only
  rw [apply_ite L2InsertOut.cache]
  split
  · exact l2Inv_updL2 _ _ _ hc (fun _ => rfl)
  · exact l2Inv_updL2 _ _ _ hc (fun _ => rfl)

theorem stInv_handle_l2_miss (s : MemState) (a ctl : Nat) (h : stInv s)
    (s2 : MemState) (h2 : memory_handle_l2_miss s a ctl = some s2) : stInv s2 := by
  unfold memory_handle_l2_miss at h2
  dsimp only at h2
  split at h2
  · cases h2
  · split at h2
    · split at h2
      · cases h2
      · injection h2 with h3
        subst h3
        exact ⟨h.1, l2Inv_insert _ _ _ _ _ _ h.2⟩
    · injection h2 with h3
      subst h3
      exact ⟨h.1, l2Inv_insert _ _ _ _ _ _ h.2⟩

theorem stInv_handle_l1_miss (s : MemState) (a : Nat) (h : stInv s)
    (s2 : MemState) (h2 : memory_handle_l1_miss s a = some s2) : stInv s2 := by
  unfold memory_handle_l1_miss at h2
  dsimp only at h2
  split at h2
  · cases h2
  · rename_i s3 rd st heq
    have hs3 : stInv s3 := by
      split at heq
      · split at heq
        · cases heq
        · rename_i s2m hm
          injection heq with h4
          have hmid : stInv { s with
              l2 := (l2_cache_access s.l2 a zeroLine 1 zeroLine 0).cache,
              num_l2_misses := s.num_l2_misses + 1 } :=
            ⟨h.1, l2Inv_access _ _ _ _ _ _ h.2⟩
          have hs2m : stInv s2m := stInv_handle_l2_miss _ _ _ hmid _ hm
          have h5 : s3 = { s2m with
              l2 := (l2_cache_access s2m.l2 a zeroLine 1
                (l2_cache_access s.l2 a zeroLine 1 zeroLine 0).read_data
                (l2_cache_access s.l2 a zeroLine 1 zeroLine 0).status).cache } :=
            (congrArg Prod.fst h4).symm
          rw [h5]
          exact ⟨hs2m.1, l2Inv_access _ _ _ _ _ _ hs2m.2⟩
      · injection heq with h4
        have h5 : s3 = { s with l2 := (l2_cache_access s.l2 a zeroLine 1 zeroLine 0).cache } :=
          (congrArg Prod.fst h4).symm
        rw [h5]
        exact ⟨h.1, l2Inv_access _ _ _ _ _ _ h.2⟩
    split at h2
    · split at h2
      · split at h2
        · cases h2
        · rename_i s6 hm6
          injection h2 with h3
          subst h3
          have hs5 : stInv { { s3 with
              l1 := (l1_insert_line s3.l1 a rd 0 zeroLine st).cache } with
              l2 := (l2_cache_access s3.l2
                (l1_insert_line s3.l1 a rd 0 zeroLine st).ev_addr
                (l1_insert_line s3.l1 a rd 0 zeroLine st).ev_data 2 zeroLine
                (l1_insert_line s3.l1 a rd 0 zeroLine st).status).cache } :=
            ⟨l1Inv_insert _ _ _ _ _ _ hs3.1, l2Inv_access _ _ _ _ _ _ hs3.2⟩
          have hs6 : stInv s6 := stInv_handle_l2_miss _ _ _ hs5 _ hm6
          exact ⟨hs6.1, l2Inv_access _ _ _ _ _ _ hs6.2⟩
      · injection h2 with h3
        subst h3
        exact ⟨l1Inv_insert _ _ _ _ _ _ hs3.1, l2Inv_access _ _ _ _ _ _ hs3.2⟩
    · injection h2 with h3
      subst h3
      exact ⟨l1Inv_insert _ _ _ _ _ _ hs3.1, hs3.2⟩

theorem stInv_memory_access (s : MemState) (a w c rd : Nat) (h : stInv s)
    (out : AccessOut) (h2 : memory_access s a w c rd = some out) : stInv out.state := by
  unfold memory_access at h2
  dsimp only at h2
  split at h2
  · split at h2
    · cases h2
    · rename_i s3 hm
      injection h2 with h3
      subst h3
      have hs1 : stInv { s with
          l1 := (l1_cache_access s.l1 a w c rd 0).cache,
          num_l1_misses := s.num_l1_misses + 1 } :=
        ⟨l1Inv_access _ _ _ _ _ _ h.1, h.2⟩
      have hs3 : stInv s3 := stInv_handle_l1_miss _ _ hs1 _ hm
      exact ⟨l1Inv_access _ _ _ _ _ _ hs3.1, hs3.2⟩
  · injection h2 with h3
    subst h3
    exact ⟨l1Inv_access _ _ _ _ _ _ h.1, h.2⟩

theorem stInv_clock (s : MemState) (h : stInv s) :
    stInv (memory_handle_clock_interrupt s) :=
  ⟨l1Inv_clear _ h.1, h.2⟩

theorem stInv_runOp_noinit (s : MemState) (op : MemOp) (hop : ∀ n, op ≠ .init n)
    (h : stInv s) (s2 : MemState) (h2 : runOp s op = some s2) : stInv s2 := by
  cases op with
  | access a w c =>
    simp only [runOp] at h2
    cases hma : memory_access s a w c 0 with
    | none => rw [hma] at h2; cases h2
    | some out =>
      rw [hma] at h2
      injection h2 with h3
      subst h3
      exact stInv_memory_access _ _ _ _ _ h _ hma
  | clock =>
    simp only [runOp] at h2
    injection h2 with h3
    subst h3
    exact stInv_clock _ h
  | init n => exact absurd rfl (hop n)


theorem stInv_runOps (ops : List MemOp) (hops : noInit ops = true) :
    ∀ s s2, stInv s → runOps s ops = some s2 → stInv s2 := by
  induction ops with
  | nil =>
    intro s s2 hs h2
    unfold runOps at h2
    injection h2 with h3
    subst h3
    exact hs
  | cons op rest ih =>
    intro s s2 hs h2
    unfold runOps at h2
    cases hop : runOp s op with
    | none => rw [hop] at h2; cases h2
    | some s1 =>
      rw [hop] at h2
      dsimp only [Option.bind] at h2
      have hni : noInit rest = true ∧ ∀ n, op ≠ MemOp.init n := by
        cases op <;> simp_all [noInit]
      exact ih hni.1 s1 s2 (stInv_runOp_noinit s op hni.2 hs s1 hop) h2

/-- Claim C6 (amended): from a `memory_subsystem_initialize` applied to a
state with no dirty L2 entry (such as the pristine process state), every
state reachable by any sequence of `memory_access` and
`memory_handle_clock_interrupt` calls — with no re-initialization — has
dirty implying valid for every L1 and L2 entry. Re-initialization preserves
this for L1 but `l2_initialize` clears only the valid bit, so it can leave
an invalid-but-dirty L2 entry (see the counterexample). -/
theorem C6_amended (size : Nat) (sp : MemState) (ops : List MemOp)
    (hops : noInit ops = true) (hsp : ∀ i, (sp.l2 i).dirty = false)
    (s0 s : MemState) (h0 : memory_subsystem_initialize size sp = some s0)
    (hrun : runOps s0 ops = some s) : stInv s := by
  have hs0 : stInv s0 := by
    unfold memory_subsystem_initialize at h0
    split at h0
    · cases h0
    · injection h0 with h3
      subst h3
      refine ⟨l1Inv_init _, ?_⟩
      intro i hd
      have h4 : (sp.l2 i).dirty = true := hd
      rw [hsp i] at h4
      cases h4
  exact stInv_runOps ops hops s0 s hs0 hrun

/-- Claim C6 amended witness: the amended invariant at the concrete state
reached by a 64-byte initialization followed by `c6wOps`. -/
theorem C6_amended_witness : stInv c6wit :=
  C6_amended 64 initialState c6wOps rfl (fun _ => rfl) c6wInit c6wit rfl rfl
